import Mathlib

/-!
Verification of the update/publish reconciliation engine of the
Group Analytics Dashboard notebooks.

Python strings are modelled as lists of characters, Python values flowing
through the dataframe pipeline as an inductive `PyVal`, and the external
sink (the hosted-table service) as explicit state threaded through the
functions together with a trace of the operations performed against it.
Fallible collaborator calls (search, delete, append, item update) are
modelled by outcome parameters, so that every control path of the source
is represented by a concrete choice of outcomes.
-/

abbrev PyStr := List Char

/-- The truncation marker appended by the sanitizer, Python "...". -/
def ellipsisMarker : PyStr := ['.', '.', '.']

/-- Embedding of truncate_string (identical in both notebooks).
Source: if value is None return ""; str_value = str(value); if
len(str_value) <= max_length return str_value; if add_ellipsis and
max_length > 3 return str_value[:max_length - 3] + "..."; else return
str_value[:max_length].  For a string input str(value) is the value
itself, so the value parameter is an optional string. -/
def truncate_string (value : Option PyStr) (max_length : Nat) (add_ellipsis : Bool) : PyStr :=
  match value with
  | Option.none => []
  | Option.some str_value =>
    if str_value.length ≤ max_length then
      str_value
    else if add_ellipsis ∧ max_length > 3 then
      str_value.take (max_length - 3) ++ ellipsisMarker
    else
      str_value.take max_length

/-- C3 counterexample: the string "..." with limit 4 is returned unchanged
(its length 3 is within the limit), yet it ends with the truncation marker,
so "ends with the marker iff the input is longer than the limit" fails in
the right-to-left direction at this input. -/
theorem truncate_marker_iff_cx :
    ¬ (List.IsSuffix ellipsisMarker (truncate_string (Option.some ellipsisMarker) 4 true) ↔
        ellipsisMarker.length > 4) := by
  intro h
  have h1 : truncate_string (Option.some ellipsisMarker) 4 true = ellipsisMarker := rfl
  have h2 : List.IsSuffix ellipsisMarker (truncate_string (Option.some ellipsisMarker) 4 true) := by
    rw [h1]
  exact absurd (h.mp h2) (by decide)

/-- C3 amended: for every string s and limit n > 3, the truncated string
has length at most n; if s is longer than n the result ends with the
truncation marker; and if s fits within n the result is s itself — hence
the result can end with the marker while s is within the limit exactly
when s itself already ends with the marker. -/
theorem truncate_string_spec (s : PyStr) (n : Nat) (h : 3 < n) :
    (truncate_string (Option.some s) n true).length ≤ n ∧
    (s.length > n → List.IsSuffix ellipsisMarker (truncate_string (Option.some s) n true)) ∧
    (s.length ≤ n → truncate_string (Option.some s) n true = s) := by
  by_cases hle : s.length ≤ n
  · have hres : truncate_string (Option.some s) n true = s := by
      simp only [truncate_string, if_pos hle]
    refine ⟨?_, ?_, ?_⟩
    · rw [hres]
      exact hle
    · intro hgt
      omega
    · intro _
      exact hres
  · have hgt : ¬ s.length ≤ n := hle
    have hres : truncate_string (Option.some s) n true = s.take (n - 3) ++ ellipsisMarker := by
      simp only [truncate_string, if_neg hgt]
      rw [if_pos]
      exact ⟨by trivial, h⟩
    refine ⟨?_, ?_, ?_⟩
    · rw [hres]
      simp only [List.length_append, List.length_take, ellipsisMarker]
      simp only [List.length_cons, List.length_nil]
      omega
    · intro _
      rw [hres]
      exact ⟨s.take (n - 3), rfl⟩
    · intro hcontra
      omega

/-- Witness for truncate_string_spec at the concrete string "abcde" and
limit 4: the result has length at most 4, ends with the marker since the
input is longer than 4, and the fits-unchanged clause holds vacuously. -/
theorem truncate_string_spec_witness :
    (truncate_string (Option.some ['a', 'b', 'c', 'd', 'e']) 4 true).length ≤ 4 ∧
    (['a', 'b', 'c', 'd', 'e'].length > 4 →
      List.IsSuffix ellipsisMarker (truncate_string (Option.some ['a', 'b', 'c', 'd', 'e']) 4 true)) ∧
    (['a', 'b', 'c', 'd', 'e'].length ≤ 4 →
      truncate_string (Option.some ['a', 'b', 'c', 'd', 'e']) 4 true = ['a', 'b', 'c', 'd', 'e']) :=
  truncate_string_spec ['a', 'b', 'c', 'd', 'e'] 4 (by decide)

/-! ## Timestamp helpers

convert_timestamp_to_date and days_since guard the sentinel values None
and -1, call datetime.datetime.fromtimestamp(timestamp_ms / 1000), and
catch exactly (ValueError, OSError, TypeError). -/

/-- Exception kinds that CPython's fromtimestamp is documented to raise. -/
inductive PyExc
  | valueError
  | osError
  | typeError
  | overflowError
deriving DecidableEq

/-- Largest value representable in the platform time_t (64-bit signed). -/
def timeTMax : Int := 9223372036854775807

/-- Smallest value representable in the platform time_t (64-bit signed). -/
def timeTMin : Int := -9223372036854775808

/-- Seconds from the epoch back to 0001-01-01T00:00:00, the smallest
timestamp datetime can represent. -/
def minDateSec : Int := -62135596800

/-- Seconds from the epoch to 9999-12-31T23:59:59, the largest timestamp
datetime can represent. -/
def maxDateSec : Int := 253402300799

/-- Model of CPython datetime.datetime.fromtimestamp on a 64-bit platform
(an external collaborator of the notebooks, not repository code).  Per the
datetime documentation it raises OverflowError when the timestamp falls
outside the range of the platform time_t, ValueError when the resulting
year falls outside datetime's supported range, and OSError on a C library
failure (not modelled: it needs the same handling as ValueError here).
The returned date is modelled as the day number since the epoch. -/
def fromtimestampModel (sec : Int) : Except PyExc Int :=
  if sec < timeTMin ∨ sec > timeTMax then
    Except.error PyExc.overflowError
  else if sec < minDateSec ∨ sec > maxDateSec then
    Except.error PyExc.valueError
  else
    Except.ok (Int.fdiv sec 86400)

/-- Embedding of convert_timestamp_to_date: None or -1 returns None;
otherwise fromtimestamp(timestamp_ms / 1000) is attempted and only
ValueError, OSError and TypeError are converted to None — any other
exception (OverflowError) propagates, modelled as an Except error. -/
def convert_timestamp_to_date (timestamp_ms : Option Int) : Except PyExc (Option Int) :=
  match timestamp_ms with
  | Option.none => Except.ok Option.none
  | Option.some ms =>
    if ms = -1 then Except.ok Option.none
    else
      match fromtimestampModel (Int.fdiv ms 1000) with
      | Except.ok d => Except.ok (Option.some d)
      | Except.error e =>
        if e = PyExc.valueError ∨ e = PyExc.osError ∨ e = PyExc.typeError then
          Except.ok Option.none
        else
          Except.error e

/-- Embedding of days_since: the same sentinel guard and except clause as
convert_timestamp_to_date; on success it returns the whole days of
datetime.now() minus the converted time, with now passed explicitly as a
seconds-since-epoch value. -/
def days_since (now_sec : Int) (timestamp_ms : Option Int) : Except PyExc (Option Int) :=
  match timestamp_ms with
  | Option.none => Except.ok Option.none
  | Option.some ms =>
    if ms = -1 then Except.ok Option.none
    else
      match fromtimestampModel (Int.fdiv ms 1000) with
      | Except.ok _ => Except.ok (Option.some (Int.fdiv (now_sec - Int.fdiv ms 1000) 86400))
      | Except.error e =>
        if e = PyExc.valueError ∨ e = PyExc.osError ∨ e = PyExc.typeError then
          Except.ok Option.none
        else
          Except.error e

/-- C9 counterexample: at the concrete input 2 to the power 73 (about
9.4e21 milliseconds, beyond the 64-bit time_t range once divided by 1000),
both functions propagate OverflowError instead of returning None — the
except clause names only ValueError, OSError and TypeError, so the
claim that they never raise on non-sentinel inputs is false. -/
theorem timestamp_overflow_cx :
    convert_timestamp_to_date (Option.some (2 ^ 73)) = Except.error PyExc.overflowError ∧
    days_since 0 (Option.some (2 ^ 73)) = Except.error PyExc.overflowError := by
  constructor
  · rfl
  · rfl

/-- C9 amended: convert_timestamp_to_date and days_since treat None and -1
as missing and return None for them; conversion errors of the caught kinds
(ValueError, OSError, TypeError) also yield None; but the only error that
can escape either function is OverflowError, raised when the converted
timestamp falls outside the platform time_t range — such inputs do raise. -/
theorem timestamp_sentinel_handling :
    convert_timestamp_to_date Option.none = Except.ok Option.none ∧
    convert_timestamp_to_date (Option.some (-1)) = Except.ok Option.none ∧
    (∀ now_sec : Int, days_since now_sec Option.none = Except.ok Option.none) ∧
    (∀ now_sec : Int, days_since now_sec (Option.some (-1)) = Except.ok Option.none) ∧
    (∀ (ms : Int) (e : PyExc), convert_timestamp_to_date (Option.some ms) = Except.error e →
      e = PyExc.overflowError ∧
        (Int.fdiv ms 1000 < timeTMin ∨ Int.fdiv ms 1000 > timeTMax)) ∧
    (∀ (now_sec ms : Int) (e : PyExc), days_since now_sec (Option.some ms) = Except.error e →
      e = PyExc.overflowError ∧
        (Int.fdiv ms 1000 < timeTMin ∨ Int.fdiv ms 1000 > timeTMax)) := by
  refine ⟨rfl, rfl, fun _ => rfl, fun _ => rfl, ?_, ?_⟩
  · intro ms e h
    by_cases hms : ms = -1
    · simp [convert_timestamp_to_date, hms] at h
    · simp only [convert_timestamp_to_date, if_neg hms, fromtimestampModel] at h
      by_cases h1 : Int.fdiv ms 1000 < timeTMin ∨ Int.fdiv ms 1000 > timeTMax
      · rw [if_pos h1] at h
        simp at h
        refine ⟨?_, h1⟩
        first
        | exact h
        | exact h.symm
      · rw [if_neg h1] at h
        by_cases h2 : Int.fdiv ms 1000 < minDateSec ∨ Int.fdiv ms 1000 > maxDateSec
        · rw [if_pos h2] at h
          simp at h
        · rw [if_neg h2] at h
          simp at h
  · intro now_sec ms e h
    by_cases hms : ms = -1
    · simp [days_since, hms] at h
    · simp only [days_since, if_neg hms, fromtimestampModel] at h
      by_cases h1 : Int.fdiv ms 1000 < timeTMin ∨ Int.fdiv ms 1000 > timeTMax
      · rw [if_pos h1] at h
        simp at h
        refine ⟨?_, h1⟩
        first
        | exact h
        | exact h.symm
      · rw [if_neg h1] at h
        by_cases h2 : Int.fdiv ms 1000 < minDateSec ∨ Int.fdiv ms 1000 > maxDateSec
        · rw [if_pos h2] at h
          simp at h
        · rw [if_neg h2] at h
          simp at h

/-- Witness for timestamp_sentinel_handling: the escaping-error clause is
instantiated at the concrete overflowing input 2 to the power 73. -/
theorem timestamp_sentinel_handling_witness :
    PyExc.overflowError = PyExc.overflowError ∧
      (Int.fdiv (2 ^ 73) 1000 < timeTMin ∨ Int.fdiv (2 ^ 73) 1000 > timeTMax) :=
  timestamp_sentinel_handling.2.2.2.2.1 (2 ^ 73) PyExc.overflowError (by rfl)

/-! ## Batch upsert fallback

add_features_in_batches reads the live field descriptors (excluding the
system fields objectid, fid, globalid), builds per-row attribute maps
restricted to schema fields matched case-insensitively against the
dataframe columns, truncates string values to the declared field length,
drops rows that match nothing, inserts the remaining features in batches,
retries a thrown batch row by row when it holds more than one row, and
reports success exactly when at least one row was added. -/

/-- Dataframe cell values after the pandas date normalization: None,
strings (including rendered dates), numbers, and booleans. -/
inductive PyVal
  | null
  | str (s : PyStr)
  | num (n : Int)
  | boolean (b : Bool)
deriving DecidableEq

/-- Python str() of a value, as used on values bound for string fields. -/
def pyStrOf (v : PyVal) : PyStr :=
  match v with
  | PyVal.null => "None".data
  | PyVal.str s => s
  | PyVal.num n => (toString n).data
  | PyVal.boolean b => if b then "True".data else "False".data

/-- The bool-to-string conversion pass of add_features_in_batches: boolean
dataframe values are replaced by str(x); other values pass through (date
columns have already been rendered to strings by the preceding pass). -/
def preprocessVal (v : PyVal) : PyVal :=
  match v with
  | PyVal.boolean b => PyVal.str (pyStrOf (PyVal.boolean b))
  | v2 => v2

/-- A live field descriptor as returned by layer.properties.fields: a
name, a type string, and an optional declared length. -/
structure LayerField where
  name : PyStr
  ftype : PyStr
  length : Option Nat
deriving DecidableEq

/-- The per-field record kept in layer_field_info: the original name, the
type, and the length with the source's default of 256 applied. -/
structure FieldInfo where
  name : PyStr
  ftype : PyStr
  length : Nat
deriving DecidableEq

/-- Insertion into a Python dict preserving insertion order: an existing
key is overwritten in place, a new key is appended. -/
def odInsert {κ ν : Type} [DecidableEq κ] (k : κ) (v : ν) : List (κ × ν) → List (κ × ν)
  | [] => [(k, v)]
  | (k2, v2) :: rest => if k2 = k then (k, v) :: rest else (k2, v2) :: odInsert k v rest

/-- Lookup in the ordered-dict representation. -/
def odLookup {κ ν : Type} [DecidableEq κ] (k : κ) : List (κ × ν) → Option ν
  | [] => Option.none
  | (k2, v) :: rest => if k2 = k then Option.some v else odLookup k rest

/-- Lowercasing of a Python string. -/
def lowerStr (s : PyStr) : PyStr := s.map Char.toLower

/-- The system-managed field names excluded from editing. -/
def sysFields : List PyStr := ["objectid".data, "fid".data, "globalid".data]

/-- The esri string field type tag. -/
def strFieldType : PyStr := "esriFieldTypeString".data

/-- Embedding of the layer_field_info dict: every live field keyed by its
lowercased name, skipping the system fields, with the length default. -/
def layer_field_info (fields : List LayerField) : List (PyStr × FieldInfo) :=
  fields.foldl
    (fun d f =>
      let field_name := lowerStr f.name
      if field_name ∈ sysFields then d
      else odInsert field_name ⟨f.name, f.ftype, f.length.getD 256⟩ d)
    []

/-- Embedding of df_columns_lower: each dataframe column keyed by its
lowercased name. -/
def df_columns_lower (cols : List PyStr) : List (PyStr × PyStr) :=
  cols.foldl (fun d c => odInsert (lowerStr c) c d) []

/-- A dataframe row: column name to cell value (a pandas row carries every
column of the frame). -/
abbrev DfRow := List (PyStr × PyVal)

/-- An in-memory dataframe: the column list and the rows. -/
structure DataFrame where
  cols : List PyStr
  rows : List DfRow
deriving DecidableEq

/-- A feature's attribute map, as sent to edit_features. -/
abbrev Feature := List (PyStr × PyVal)

/-- String truncation to the declared field length: value[:max_len] when
the string exceeds it, the hard cut of the fallback path (no marker). -/
def strTruncLen (s : PyStr) (max_len : Nat) : PyStr :=
  if s.length > max_len then s.take max_len else s

/-- The attribute-building loop body of add_features_in_batches, one
iteration per layer_field_info entry: a schema field matched (by lowercase
name) to a dataframe column contributes the row's value, stringified and
truncated when the field type is string; unmatched schema fields are
skipped.  Written as explicit recursion over the remaining entries with
the accumulated attributes dict. -/
def buildAttrsGo (dcl : List (PyStr × PyStr)) (row : DfRow) :
    List (PyStr × FieldInfo) → Feature → Feature
  | [], attributes => attributes
  | p :: rest, attributes =>
    match odLookup p.1 dcl with
    | Option.none => buildAttrsGo dcl row rest attributes
    | Option.some df_col =>
      let value0 := (odLookup df_col row).getD PyVal.null
      let value0 := preprocessVal value0
      let value :=
        if value0 ≠ PyVal.null ∧ p.2.ftype = strFieldType then
          PyVal.str (strTruncLen (pyStrOf value0) p.2.length)
        else value0
      buildAttrsGo dcl row rest (odInsert p.2.name value attributes)

/-- The attribute map built for one dataframe row. -/
def buildRowAttributes (lfi : List (PyStr × FieldInfo)) (dcl : List (PyStr × PyStr))
    (row : DfRow) : Feature :=
  buildAttrsGo dcl row lfi []

/-- Embedding of all_features: the attribute maps of all rows, dropping
any row whose attribute map came out empty. -/
def all_features (fields : List LayerField) (df : DataFrame) : List Feature :=
  df.rows.filterMap
    (fun row =>
      let attributes := buildRowAttributes (layer_field_info fields) (df_columns_lower df.cols) row
      if attributes.isEmpty then Option.none else Option.some attributes)

/-- Outcome of one single-feature retry insert. -/
inductive SingleOutcome
  | okS
  | failS
  | throwsS
deriving DecidableEq

/-- Outcome of one edit_features batch call: a result with per-row success
flags, a falsy or addResults-free result, or a thrown transport error with
the outcomes of the subsequent per-row retries. -/
inductive BatchOutcome
  | results (rs : List Bool)
  | noResult
  | throwsB (singles : Nat → SingleOutcome)

/-- Observable sink operations of the batch loop. -/
inductive InsertEff
  | editBatch (fs : List Feature)
  | editSingle (f : Feature)
  | sleepBatches
  | sleepRetry
deriving DecidableEq

/-- The one-record-at-a-time retry loop over a thrown batch: one
edit_features call per feature, counting successes, with the small
time.sleep(0.1) after every record. -/
def retryGo (singles : Nat → SingleOutcome) : Nat → List Feature → Nat × List InsertEff
  | _, [] => (0, [])
  | j, f :: rest =>
    let r := retryGo singles (j + 1) rest
    ((if singles j = SingleOutcome.okS then 1 else 0) + r.1,
      InsertEff.editSingle f :: InsertEff.sleepRetry :: r.2)

/-- Handling of one batch: on a result, count the per-row successes and
sleep between batches when more remain; on a missing result, count the
batch as failed (and still sleep); on a thrown call, retry row by row —
but only when batch_size > 1 and the batch holds more than one row — and
skip the inter-batch sleep (the except block ends in continue). -/
def handleBatch (batch_size : Nat) (o : BatchOutcome) (b : List Feature) (more : Bool) :
    Nat × List InsertEff :=
  match o with
  | BatchOutcome.results rs =>
    (rs.countP (fun x => x),
      InsertEff.editBatch b :: (if more then [InsertEff.sleepBatches] else []))
  | BatchOutcome.noResult =>
    (0, InsertEff.editBatch b :: (if more then [InsertEff.sleepBatches] else []))
  | BatchOutcome.throwsB singles =>
    if 1 < batch_size ∧ 1 < b.length then
      let r := retryGo singles 0 b
      (r.1, InsertEff.editBatch b :: r.2)
    else
      (0, [InsertEff.editBatch b])

/-- The batch loop: batches processed in order, accumulating the total
added and the operation trace; the outcome oracle is indexed by batch
number. -/
def processBatches (batch_size : Nat) (outcomes : Nat → BatchOutcome) :
    Nat → List (List Feature) → Nat × List InsertEff
  | _, [] => (0, [])
  | i, b :: rest =>
    let h := handleBatch batch_size (outcomes i) b (!rest.isEmpty)
    let r := processBatches batch_size outcomes (i + 1) rest
    (h.1 + r.1, h.2 ++ r.2)

/-- Slicing loop for chunks, with the remaining list length as structural
fuel so that the definition computes by reduction; each step consumes at
least one element, so fuel = length never runs out. -/
def chunksGo {γ : Type} (batch_size : Nat) : Nat → List γ → List (List γ)
  | _, [] => []
  | 0, _ :: _ => []
  | fuel + 1, x :: xs =>
    (x :: xs).take batch_size :: chunksGo batch_size fuel (xs.drop (batch_size - 1))

/-- Partition into slices of batch_size elements, the slicing of
all_features[i : i + batch_size] (meaningful for batch_size ≥ 1). -/
def chunks {γ : Type} (batch_size : Nat) (l : List γ) : List (List γ) :=
  chunksGo batch_size l.length l

/-- Embedding of add_features_in_batches: build the features, fail
immediately when none matched, otherwise run the batch loop and report
success when all rows were added or some rows were added — failure only
on zero.  Returns (success, total_added, trace); the source returns only
the boolean, the other components are the observations the claims are
about. -/
def add_features_in_batches (fields : List LayerField) (df : DataFrame)
    (batch_size : Nat) (outcomes : Nat → BatchOutcome) : Bool × Nat × List InsertEff :=
  let all := all_features fields df
  if all.isEmpty then (false, 0, [])
  else
    let r := processBatches batch_size outcomes 0 (chunks batch_size all)
    let total_added := r.1
    (if total_added = all.length then true
     else if 0 < total_added then true
     else false,
     total_added, r.2)

/-- C5: add_features_in_batches returns success exactly when the number of
rows it inserted is positive — all rows inserted is success, a partial
insert is success, and zero rows inserted is the only failure. -/
theorem batch_insert_success_iff_some (fields : List LayerField) (df : DataFrame)
    (batch_size : Nat) (outcomes : Nat → BatchOutcome) :
    (add_features_in_batches fields df batch_size outcomes).1 = true ↔
      0 < (add_features_in_batches fields df batch_size outcomes).2.1 := by
  unfold add_features_in_batches
  by_cases hall : (all_features fields df).isEmpty
  · simp [hall]
  · simp only [hall, Bool.false_eq_true, if_false]
    have hlen : 0 < (all_features fields df).length := by
      cases hc : all_features fields df
      · rw [hc] at hall
        simp at hall
      · simp [hc]
    set k := (processBatches batch_size outcomes 0 (chunks batch_size (all_features fields df))).1 with hk
    by_cases h1 : k = (all_features fields df).length
    · simp only [h1, if_pos rfl]
      constructor
      · intro _
        omega
      · intro _
        rfl
    · rw [if_neg h1]
      by_cases h2 : 0 < k
      · simp [h2]
      · simp [h2]

/-- Membership after an ordered-dict insertion: the element was already
present or is the inserted pair. -/
theorem odInsert_mem {κ ν : Type} [DecidableEq κ] (k : κ) (v : ν) (l : List (κ × ν))
    (x : κ × ν) (hx : x ∈ odInsert k v l) : x ∈ l ∨ x = (k, v) := by
  induction l with
  | nil =>
    simp [odInsert] at hx
    exact Or.inr hx
  | cons hd tl ih =>
    simp only [odInsert] at hx
    by_cases hk : hd.1 = k
    · rw [if_pos hk] at hx
      rcases List.mem_cons.mp hx with h1 | h1
      · exact Or.inr h1
      · exact Or.inl (List.mem_cons_of_mem hd h1)
    · rw [if_neg hk] at hx
      rcases List.mem_cons.mp hx with h1 | h1
      · exact Or.inl (h1 ▸ List.mem_cons_self hd tl)
      · rcases ih h1 with h2 | h2
        · exact Or.inl (List.mem_cons_of_mem hd h2)
        · exact Or.inr h2

/-- Shape of every layer_field_info entry: it is keyed by the lowercased
name of some live field that is not a system field, and carries that
field's name, type, and length with the 256 default applied. -/
theorem layer_field_info_go_mem (fields : List LayerField) :
    ∀ (acc : List (PyStr × FieldInfo)) (p : PyStr × FieldInfo),
      p ∈ fields.foldl
        (fun d f =>
          let field_name := lowerStr f.name
          if field_name ∈ sysFields then d
          else odInsert field_name ⟨f.name, f.ftype, f.length.getD 256⟩ d)
        acc →
      p ∈ acc ∨ ∃ f ∈ fields, lowerStr f.name ∉ sysFields ∧
        p = (lowerStr f.name, ⟨f.name, f.ftype, f.length.getD 256⟩) := by
  induction fields with
  | nil =>
    intro acc p hp
    exact Or.inl hp
  | cons hd tl ih =>
    intro acc p hp
    simp only [List.foldl_cons] at hp
    by_cases hsys : lowerStr hd.name ∈ sysFields
    · simp only [if_pos hsys] at hp
      rcases ih acc p hp with h1 | ⟨f, hf, hns, hpe⟩
      · exact Or.inl h1
      · exact Or.inr ⟨f, List.mem_cons_of_mem hd hf, hns, hpe⟩
    · simp only [if_neg hsys] at hp
      rcases ih (odInsert (lowerStr hd.name) ⟨hd.name, hd.ftype, hd.length.getD 256⟩ acc) p hp with
        h1 | ⟨f, hf, hns, hpe⟩
      · rcases odInsert_mem _ _ _ _ h1 with h2 | h2
        · exact Or.inl h2
        · exact Or.inr ⟨hd, List.mem_cons_self hd tl, hsys, h2⟩
      · exact Or.inr ⟨f, List.mem_cons_of_mem hd hf, hns, hpe⟩

/-- Shape of every layer_field_info entry, stated on the empty initial
accumulator. -/
theorem layer_field_info_mem (fields : List LayerField) (p : PyStr × FieldInfo)
    (hp : p ∈ layer_field_info fields) :
    ∃ f ∈ fields, lowerStr f.name ∉ sysFields ∧
      p = (lowerStr f.name, ⟨f.name, f.ftype, f.length.getD 256⟩) := by
  rcases layer_field_info_go_mem fields [] p hp with h1 | h1
  · simp at h1
  · exact h1

/-- The hard cut never exceeds the declared length. -/
theorem strTruncLen_length (s : PyStr) (max_len : Nat) : (strTruncLen s max_len).length ≤ max_len := by
  unfold strTruncLen
  by_cases h : s.length > max_len
  · rw [if_pos h]
    simp
  · rw [if_neg h]
    omega

/-- Every attribute produced by the building loop is named after some
remaining layer_field_info entry, and when that entry's field type is
string the stored value is a string within the declared length. -/
theorem buildAttrsGo_mem (dcl : List (PyStr × PyStr)) (row : DfRow) :
    ∀ (l : List (PyStr × FieldInfo)) (acc : Feature) (kv : PyStr × PyVal),
      kv ∈ buildAttrsGo dcl row l acc →
      kv ∈ acc ∨ ∃ p ∈ l, p.2.name = kv.1 ∧
        (p.2.ftype = strFieldType → ∀ s, kv.2 = PyVal.str s → s.length ≤ p.2.length) := by
  intro l
  induction l with
  | nil =>
    intro acc kv hkv
    exact Or.inl hkv
  | cons hd tl ih =>
    intro acc kv hkv
    simp only [buildAttrsGo] at hkv
    cases hlook : odLookup hd.1 dcl with
    | none =>
      rw [hlook] at hkv
      rcases ih acc kv hkv with h1 | ⟨p, hp, hpn, hps⟩
      · exact Or.inl h1
      · exact Or.inr ⟨p, List.mem_cons_of_mem hd hp, hpn, hps⟩
    | some df_col =>
      rw [hlook] at hkv
      rcases ih _ kv hkv with h1 | ⟨p, hp, hpn, hps⟩
      · rcases odInsert_mem _ _ _ _ h1 with h2 | h2
        · exact Or.inl h2
        · refine Or.inr ⟨hd, List.mem_cons_self hd tl, ?_, ?_⟩
          · rw [h2]
          · intro hstr s hs
            rw [h2] at hs
            simp only at hs
            by_cases hcond :
                preprocessVal ((odLookup df_col row).getD PyVal.null) ≠ PyVal.null ∧
                  hd.2.ftype = strFieldType
            · rw [if_pos hcond] at hs
              have hse : s = strTruncLen
                  (pyStrOf (preprocessVal ((odLookup df_col row).getD PyVal.null))) hd.2.length := by
                injection hs.symm
              rw [hse]
              exact strTruncLen_length _ _
            · rw [if_neg hcond] at hs
              rcases not_and_or.mp hcond with h3 | h3
              · rw [not_not.mp h3] at hs
                exact absurd hs.symm (by simp)
              · exact absurd hstr h3
      · exact Or.inr ⟨p, List.mem_cons_of_mem hd hp, hpn, hps⟩

/-- C10: every attribute map built by add_features_in_batches names only
live non-system schema fields, string-typed fields hold values within the
declared (defaulted) length, rows matching no schema field are dropped
before insertion and excluded from the row total that drives the
success/failure decision, and when every row is dropped the function
fails without attempting any insert. -/
theorem batch_attrs_schema_safe (fields : List LayerField) (df : DataFrame)
    (batch_size : Nat) (outcomes : Nat → BatchOutcome) :
    (∀ feat ∈ all_features fields df, ∀ kv ∈ feat,
      ∃ f ∈ fields, f.name = kv.1 ∧ lowerStr f.name ∉ sysFields ∧
        (f.ftype = strFieldType → ∀ s, kv.2 = PyVal.str s → s.length ≤ f.length.getD 256)) ∧
    (all_features fields df =
      (df.rows.map
        (fun row => buildRowAttributes (layer_field_info fields) (df_columns_lower df.cols) row)).filter
        (fun a => !a.isEmpty)) ∧
    (all_features fields df = [] →
      add_features_in_batches fields df batch_size outcomes = (false, 0, [])) := by
  refine ⟨?_, ?_, ?_⟩
  · intro feat hfeat kv hkv
    simp only [all_features, List.mem_filterMap] at hfeat
    rcases hfeat with ⟨row, hrow, hbuild⟩
    by_cases hemp : (buildRowAttributes (layer_field_info fields) (df_columns_lower df.cols) row).isEmpty
    · rw [if_pos hemp] at hbuild
      cases hbuild
    · rw [if_neg hemp] at hbuild
      have hfe : feat = buildRowAttributes (layer_field_info fields) (df_columns_lower df.cols) row := by
        injection hbuild.symm
      rw [hfe] at hkv
      unfold buildRowAttributes at hkv
      rcases buildAttrsGo_mem (df_columns_lower df.cols) row (layer_field_info fields) [] kv hkv with
        h1 | ⟨p, hp, hpn, hps⟩
      · simp at h1
      · rcases layer_field_info_mem fields p hp with ⟨f, hf, hns, hpe⟩
        refine ⟨f, hf, ?_, hns, ?_⟩
        · rw [hpe] at hpn
          exact hpn
        · intro hstr s hs
          have := hps (by rw [hpe]; exact hstr) s hs
          rw [hpe] at this
          exact this
  · unfold all_features
    induction df.rows with
    | nil => simp
    | cons hd tl ih =>
      simp only [List.filterMap_cons, List.map_cons, List.filter_cons]
      by_cases hemp :
          (buildRowAttributes (layer_field_info fields) (df_columns_lower df.cols) hd).isEmpty
      · simp only [hemp, if_pos rfl]
        rw [ih]
        simp [hemp]
      · simp only [hemp]
        rw [ih]
        simp [hemp]
  · intro hall
    unfold add_features_in_batches
    simp [hall]

/-- Witness for batch_attrs_schema_safe: the schema-safety clause is
instantiated at a single field "Name" of declared length 5 and a single
row whose 8-character value is matched case-insensitively and truncated
to "abcde". -/
theorem batch_attrs_schema_safe_witness :
    ∃ f ∈ [(⟨"Name".data, strFieldType, Option.some 5⟩ : LayerField)],
      f.name = "Name".data ∧ lowerStr f.name ∉ sysFields ∧
      (f.ftype = strFieldType → ∀ s, PyVal.str "abcde".data = PyVal.str s →
        s.length ≤ f.length.getD 256) :=
  (batch_attrs_schema_safe [⟨"Name".data, strFieldType, Option.some 5⟩]
      ⟨["name".data], [[("name".data, PyVal.str "abcdefgh".data)]]⟩ 50
      (fun _ => BatchOutcome.noResult)).1
    [("Name".data, PyVal.str "abcde".data)] (by decide)
    ("Name".data, PyVal.str "abcde".data) (by decide)

/-- An infix of a list is an infix of any extension on the left. -/
theorem isInfix_append_left {γ : Type} (x y z : List γ) (h : List.IsInfix x z) :
    List.IsInfix x (y ++ z) := by
  rcases h with ⟨s, t, hst⟩
  exact ⟨y ++ s, t, by rw [← hst]; simp⟩

/-- An infix of a list is an infix of any extension on the right. -/
theorem isInfix_append_right {γ : Type} (x y z : List γ) (h : List.IsInfix x y) :
    List.IsInfix x (y ++ z) := by
  rcases h with ⟨s, t, hst⟩
  exact ⟨s, t ++ z, by rw [← hst]; simp⟩

/-- An infix survives consing an element in front. -/
theorem isInfix_cons_of {γ : Type} (a : γ) (x y : List γ) (h : List.IsInfix x y) :
    List.IsInfix x (a :: y) := by
  rcases h with ⟨s, t, hst⟩
  exact ⟨a :: s, t, by rw [← hst]; simp⟩

/-- Every feature of a retried batch contributes the consecutive pair of
one single insert call followed by the small inter-row delay to the retry
loop's trace. -/
theorem retryGo_editSingle_pair (singles : Nat → SingleOutcome) (f : Feature) :
    ∀ (b : List Feature) (j : Nat), f ∈ b →
      List.IsInfix [InsertEff.editSingle f, InsertEff.sleepRetry] (retryGo singles j b).2 := by
  intro b
  induction b with
  | nil =>
    intro j hf
    cases hf
  | cons hd tl ih =>
    intro j hf
    rcases List.mem_cons.mp hf with h1 | h1
    · refine ⟨[], (retryGo singles (j + 1) tl).2, ?_⟩
      simp [retryGo, h1]
    · have := ih (j + 1) h1
      exact isInfix_cons_of _ _ _ (isInfix_cons_of _ _ _ this)

/-- The retry pair of every feature of a thrown multi-row batch appears in
the batch loop's trace, at whatever starting batch number the loop is
given. -/
theorem processBatches_retry_pair (batch_size : Nat) (outcomes : Nat → BatchOutcome) :
    ∀ (bts : List (List Feature)) (start i : Nat) (b : List Feature)
      (singles : Nat → SingleOutcome),
      bts.get? i = Option.some b → outcomes (start + i) = BatchOutcome.throwsB singles →
      1 < batch_size → 1 < b.length →
      ∀ f ∈ b, List.IsInfix [InsertEff.editSingle f, InsertEff.sleepRetry]
        (processBatches batch_size outcomes start bts).2 := by
  intro bts
  induction bts with
  | nil =>
    intro start i b singles hb
    simp at hb
  | cons hd tl ih =>
    intro start i b singles hb ho hbs hblen f hf
    cases i with
    | zero =>
      have hbe : b = hd := by
        simp at hb
        exact hb.symm
      subst hbe
      simp only [processBatches]
      rw [Nat.add_zero] at ho
      have htr : (handleBatch batch_size (outcomes start) b (!tl.isEmpty)).2 =
          InsertEff.editBatch b :: (retryGo singles 0 b).2 := by
        rw [ho]
        simp only [handleBatch]
        rw [if_pos ⟨hbs, hblen⟩]
      apply isInfix_append_right
      rw [htr]
      exact isInfix_cons_of _ _ _ (retryGo_editSingle_pair singles f b 0 hf)
    | succ j =>
      have hb2 : tl.get? j = Option.some b := by
        simpa using hb
      have ho2 : outcomes (start + 1 + j) = BatchOutcome.throwsB singles := by
        have harith : start + 1 + j = start + (j + 1) := by omega
        rw [harith]
        exact ho
      simp only [processBatches]
      apply isInfix_append_left
      exact ih (start + 1) j b singles hb2 ho2 hbs hblen f hf

/-- C7 amended: in add_features_in_batches, every batch of more than one
row whose insert call throws (with a batch size above one, as in the
default of 50) has each of its rows retried with an individual insert
call followed by the small inter-row delay; a batch holding a single row
is exempt (see the counterexample), since retrying it alone would repeat
the identical call. -/
theorem batch_retry_per_row (fields : List LayerField) (df : DataFrame)
    (batch_size : Nat) (outcomes : Nat → BatchOutcome) (i : Nat) (b : List Feature)
    (singles : Nat → SingleOutcome)
    (hb : (chunks batch_size (all_features fields df)).get? i = Option.some b)
    (ho : outcomes i = BatchOutcome.throwsB singles)
    (hbs : 1 < batch_size) (hblen : 1 < b.length) :
    ∀ f ∈ b, List.IsInfix [InsertEff.editSingle f, InsertEff.sleepRetry]
      (add_features_in_batches fields df batch_size outcomes).2.2 := by
  intro f hf
  have hall : ¬ (all_features fields df).isEmpty := by
    intro hemp
    have : all_features fields df = [] := by
      cases hc : all_features fields df
      · rfl
      · rw [hc] at hemp
        simp at hemp
    rw [this] at hb
    simp [chunks, chunksGo] at hb
  unfold add_features_in_batches
  simp only [hall, Bool.false_eq_true, if_false]
  have ho0 : outcomes (0 + i) = BatchOutcome.throwsB singles := by
    rw [Nat.zero_add]
    exact ho
  exact processBatches_retry_pair batch_size outcomes
    (chunks batch_size (all_features fields df)) 0 i b singles hb ho0 hbs hblen f hf

/-- Concrete layer schema used for the batch-retry scenarios: one string
field of length 10. -/
def c7fields : List LayerField := [⟨"name".data, strFieldType, Option.some 10⟩]

/-- Concrete dataframe used for the batch-retry scenarios: three rows in
the single column "name". -/
def c7df : DataFrame :=
  ⟨["name".data],
   [[("name".data, PyVal.num 1)], [("name".data, PyVal.num 2)], [("name".data, PyVal.num 3)]]⟩

/-- First built feature of c7df. -/
def c7feat1 : Feature := [("name".data, PyVal.str "1".data)]

/-- Second built feature of c7df. -/
def c7feat2 : Feature := [("name".data, PyVal.str "2".data)]

/-- Third built feature of c7df. -/
def c7feat3 : Feature := [("name".data, PyVal.str "3".data)]

/-- Retry outcomes for the batch-retry scenarios: every single succeeds. -/
def c7singles : Nat → SingleOutcome := fun _ => SingleOutcome.okS

/-- Outcomes where the first (two-row) batch throws. -/
def c7outcomes : Nat → BatchOutcome := fun i =>
  if i = 0 then BatchOutcome.throwsB c7singles else BatchOutcome.results [true]

/-- Outcomes where the second (single-row) batch throws. -/
def c7outcomesCx : Nat → BatchOutcome := fun i =>
  if i = 0 then BatchOutcome.results [true, true] else BatchOutcome.throwsB c7singles

/-- Witness for batch_retry_per_row: with batch size 2 and three rows, the
first batch [feat1, feat2] throws and feat1's individual retry call (with
the inter-row delay) appears in the trace. -/
theorem batch_retry_per_row_witness :
    List.IsInfix [InsertEff.editSingle c7feat1, InsertEff.sleepRetry]
      (add_features_in_batches c7fields c7df 2 c7outcomes).2.2 :=
  batch_retry_per_row c7fields c7df 2 c7outcomes 0 [c7feat1, c7feat2] c7singles
    (by decide) (by rfl) (by decide) (by decide) c7feat1 (by decide)

/-- C7 counterexample: with batch size 2 and three rows, the second batch
holds the single feature feat3 and its insert call throws, yet no
individual retry of feat3 is attempted — the retry loop is guarded by
len(batch) > 1, so the claim that every thrown batch has each row retried
individually is false at this input. -/
theorem batch_retry_singleton_cx :
    c7outcomesCx 1 = BatchOutcome.throwsB c7singles ∧
    (chunks 2 (all_features c7fields c7df)).get? 1 = Option.some [c7feat3] ∧
    ¬ (InsertEff.editSingle c7feat3 ∈ (add_features_in_batches c7fields c7df 2 c7outcomesCx).2.2) :=
  ⟨rfl, by decide, by decide⟩

/-! ## Source staging store: temporary file lifecycle

update_source_csv_item and create_source_csv_item write a local temporary
CSV file, call the sink, and remove the file.  The claims concern whether
that removal happens on every path, so the functions are modelled as
transformers of a file-system state with outcome parameters for the sink
calls. -/

/-- Local file-system state: whether the temporary CSV currently exists. -/
structure FsState where
  tempExists : Bool
deriving DecidableEq

/-- Outcome of csv_item.update(data=...): a truthy result, a falsy result,
or a raised exception. -/
inductive UpdOutcome
  | retTrue
  | retFalse
  | throwsU
deriving DecidableEq

/-- Embedding of update_source_csv_item: the dataframe is serialized to
the temporary file, the item update is attempted, and the temp file is
removed only after the update call returns — a raised exception jumps to
the enclosing except clause, which returns False without reaching the
cleanup. -/
def update_source_csv_item (o : UpdOutcome) (fs : FsState) : Bool × FsState :=
  let fs1 : FsState := ⟨true⟩
  match o with
  | UpdOutcome.throwsU => (false, fs1)
  | UpdOutcome.retTrue =>
    let fs2 : FsState := ⟨false⟩
    (true, fs2)
  | UpdOutcome.retFalse =>
    let fs2 : FsState := ⟨false⟩
    (false, fs2)

/-- Outcome of the gis.content.add registration fallback. -/
inductive AddOutcome
  | okAdd
  | throwsAdd
deriving DecidableEq

/-- Registration environment of create_source_csv_item: whether the
Folder.add path produced an item (all its errors are caught), and the
outcome of the gis.content.add fallback used when it did not. -/
structure CreateEnv where
  method1Ok : Bool
  method2 : AddOutcome
deriving DecidableEq

/-- Embedding of create_source_csv_item: the temp file is written, the two
registration strategies are tried in turn, and the temp file is removed
before the normal return — but the except clause of the second strategy
returns None directly, before the cleanup block. -/
def create_source_csv_item (e : CreateEnv) (fs : FsState) : Option Unit × FsState :=
  let fs1 : FsState := ⟨true⟩
  if e.method1Ok then
    (Option.some (), ⟨false⟩)
  else
    match e.method2 with
    | AddOutcome.throwsAdd => (Option.none, fs1)
    | AddOutcome.okAdd => (Option.some (), ⟨false⟩)

/-- C8 counterexample: when the item-update call raises, and when both
registration strategies fail with the fallback raising, the functions
return failure with the temporary CSV file still on disk — the cleanup is
skipped on the exception paths, so the claim that the temp file is removed
on every path is false at these inputs. -/
theorem temp_cleanup_cx :
    update_source_csv_item UpdOutcome.throwsU ⟨false⟩ = (false, ⟨true⟩) ∧
    create_source_csv_item ⟨false, AddOutcome.throwsAdd⟩ ⟨false⟩ = (Option.none, ⟨true⟩) :=
  ⟨rfl, rfl⟩

/-- C8 amended: the temporary CSV file is removed before returning on
every path on which the sink call returns a value — success, or the falsy
failure of update — but when the sink call raises (the update call in
update_source_csv_item, or the gis.content.add fallback in
create_source_csv_item), the function returns failure with the temp file
left behind. -/
theorem temp_cleanup_on_return (o : UpdOutcome) (e : CreateEnv) (fs fs2 : FsState)
    (ho : o ≠ UpdOutcome.throwsU)
    (he : e.method1Ok = true ∨ e.method2 = AddOutcome.okAdd) :
    (update_source_csv_item o fs).2.tempExists = false ∧
    (create_source_csv_item e fs2).2.tempExists = false := by
  constructor
  · cases o with
    | retTrue => rfl
    | retFalse => rfl
    | throwsU => exact absurd rfl ho
  · unfold create_source_csv_item
    by_cases h1 : e.method1Ok = true
    · rw [if_pos h1]
    · rw [if_neg h1]
      rcases he with h2 | h2
      · exact absurd h2 h1
      · rw [h2]

/-- Witness for temp_cleanup_on_return: a falsy update result and a
successful fallback registration both leave no temp file behind. -/
theorem temp_cleanup_on_return_witness :
    (update_source_csv_item UpdOutcome.retFalse ⟨false⟩).2.tempExists = false ∧
    (create_source_csv_item ⟨false, AddOutcome.okAdd⟩ ⟨false⟩).2.tempExists = false :=
  temp_cleanup_on_return UpdOutcome.retFalse ⟨false, AddOutcome.okAdd⟩ ⟨false⟩ ⟨false⟩
    (by decide) (Or.inr rfl)

/-! ## Reconciliation engine

update_existing_table and publish_or_update_table are modelled over an
abstract row type: the sink holds at most one published table (identity
plus rows) for the processed table name, collaborator calls are outcome
parameters, and every sink operation is recorded in a trace. -/

/-- Sink operations performed by update_existing_table. -/
inductive UEff
  | deleteFeatures
  | sleepProp
  | findCsv
  | updateCsv
  | createCsv
  | appendCsv
  | batchInsert
deriving DecidableEq

/-- Outcome of target_layer.append(...): a non-None result, a None result,
or a raised exception. -/
inductive AppendOutcome
  | okA
  | isNoneA
  | throwsA
deriving DecidableEq

/-- Outcome of the add_features_in_batches fallback call as seen by
update_existing_table: success with the rows that ended up inserted,
a False return (no rows inserted), or a raised exception. -/
inductive BatchFallback (α : Type)
  | okB (inserted : List α)
  | failB
  | throwsFB
deriving DecidableEq

/-- Collaborator outcomes of one update_existing_table run: whether the
feature service exposes a table or layer, whether delete_features
succeeds, whether the source CSV is found, the results of updating or
creating it, and the outcomes of the append call and the batch fallback. -/
structure UpdateEnv (α : Type) where
  hasTarget : Bool
  deleteOk : Bool
  csvFound : Bool
  csvUpdateOk : Bool
  csvCreateOk : Bool
  append : AppendOutcome
  batch : BatchFallback α
deriving DecidableEq

/-- Embedding of update_existing_table, returning (success, rows of the
table afterwards, trace).  Steps: locate the target layer; delete all
features (a raised delete returns False at once); find or create/update
the source CSV (failure returns False with the table already emptied);
append from the CSV (non-None result is success with the new rows); on a
None result or a raised append, fall back to the batch insert, whose
success — total or partial — is overall success. -/
def update_existing_table {α : Type} (env : UpdateEnv α) (oldRows newRows : List α) :
    Bool × List α × List UEff :=
  if ¬ env.hasTarget then
    (false, oldRows, [])
  else if ¬ env.deleteOk then
    (false, oldRows, [UEff.deleteFeatures])
  else
    let tr2 : List UEff :=
      [UEff.deleteFeatures, UEff.sleepProp, UEff.findCsv,
        if env.csvFound then UEff.updateCsv else UEff.createCsv]
    if ¬ (if env.csvFound then env.csvUpdateOk else env.csvCreateOk) then
      (false, [], tr2)
    else
      match env.append with
      | AppendOutcome.okA => (true, newRows, tr2 ++ [UEff.appendCsv])
      | _ =>
        match env.batch with
        | BatchFallback.okB inserted => (true, inserted, tr2 ++ [UEff.appendCsv, UEff.batchInsert])
        | BatchFallback.failB => (false, [], tr2 ++ [UEff.appendCsv, UEff.batchInsert])
        | BatchFallback.throwsFB => (false, [], tr2 ++ [UEff.appendCsv, UEff.batchInsert])

/-- The boolean returned by update_existing_table, computed from the
outcomes alone (it does not depend on the rows). -/
def updAttemptSucceeds {α : Type} (env : UpdateEnv α) : Bool :=
  env.hasTarget && env.deleteOk &&
    (if env.csvFound then env.csvUpdateOk else env.csvCreateOk) &&
    (match env.append with
     | AppendOutcome.okA => true
     | _ =>
       match env.batch with
       | BatchFallback.okB _ => true
       | _ => false)

/-- The success flag of update_existing_table equals updAttemptSucceeds. -/
theorem update_existing_table_fst {α : Type} (env : UpdateEnv α) (oldRows newRows : List α) :
    (update_existing_table env oldRows newRows).1 = updAttemptSucceeds env := by
  rcases env with ⟨ht, dk, cf, cu, cc, ap, bt⟩
  cases ht <;> cases dk <;> cases cf <;> cases cu <;> cases cc <;> cases ap <;>
    cases bt <;> simp [update_existing_table, updAttemptSucceeds]

/-- C6: an unrecoverable error in the initial steps of
update_existing_table — the feature delete raising, or the staging CSV
update or creation failing — returns failure without the append primitive
or the batch-insert fallback ever being invoked. -/
theorem update_aborts_before_append {α : Type} (env : UpdateEnv α) (oldRows newRows : List α)
    (h : env.deleteOk = false ∨ (env.csvFound = true ∧ env.csvUpdateOk = false) ∨
      (env.csvFound = false ∧ env.csvCreateOk = false)) :
    (update_existing_table env oldRows newRows).1 = false ∧
    UEff.appendCsv ∉ (update_existing_table env oldRows newRows).2.2 ∧
    UEff.batchInsert ∉ (update_existing_table env oldRows newRows).2.2 := by
  rcases env with ⟨ht, dk, cf, cu, cc, ap, bt⟩
  cases ht <;> cases dk <;> cases cf <;> cases cu <;> cases cc <;> cases ap <;> cases bt <;>
    simp_all [update_existing_table]

/-- Witness for update_aborts_before_append: with a raising delete call,
the attempt fails and neither append nor batch insert appears in the
trace. -/
theorem update_aborts_before_append_witness :
    (update_existing_table
        (⟨true, false, true, true, true, AppendOutcome.okA, BatchFallback.failB⟩ : UpdateEnv Nat)
        [1] [2]).1 = false ∧
    UEff.appendCsv ∉ (update_existing_table
        (⟨true, false, true, true, true, AppendOutcome.okA, BatchFallback.failB⟩ : UpdateEnv Nat)
        [1] [2]).2.2 ∧
    UEff.batchInsert ∉ (update_existing_table
        (⟨true, false, true, true, true, AppendOutcome.okA, BatchFallback.failB⟩ : UpdateEnv Nat)
        [1] [2]).2.2 :=
  update_aborts_before_append
    (⟨true, false, true, true, true, AppendOutcome.okA, BatchFallback.failB⟩ : UpdateEnv Nat)
    [1] [2] (Or.inl rfl)

/-- The three recognized operator decisions at the recovery prompt. -/
inductive Decision
  | yes
  | no
  | skip
deriving DecidableEq

/-- Python strip(): leading and trailing whitespace removed. -/
def pyStrip (s : PyStr) : PyStr :=
  ((s.dropWhile Char.isWhitespace).reverse.dropWhile Char.isWhitespace).reverse

/-- Parsing of one operator answer, the source's
input(...).strip().lower() comparisons against the accepted words. -/
def parseAnswer (s : PyStr) : Option Decision :=
  let user_input := lowerStr (pyStrip s)
  if user_input = "yes".data ∨ user_input = "y".data then Option.some Decision.yes
  else if user_input = "no".data ∨ user_input = "n".data then Option.some Decision.no
  else if user_input = "skip".data ∨ user_input = "s".data then Option.some Decision.skip
  else Option.none

/-- The while-True prompt loop: the first recognized answer decides;
unrecognized answers re-prompt, and an exhausted answer stream means the
loop never returns (modelled as none). -/
def firstDecision : List PyStr → Option Decision
  | [] => Option.none
  | s :: rest =>
    match parseAnswer s with
    | Option.some d => Option.some d
    | Option.none => firstDecision rest

/-- A published hosted table: its sink-assigned identity and its rows. -/
structure Table (α : Type) where
  id : Nat
  rows : List α
deriving DecidableEq

/-- The sink state for the processed table name: the published table if
one exists, and the next fresh identity the sink would assign. -/
structure SinkState (α : Type) where
  table : Option (Table α)
  nextId : Nat
deriving DecidableEq

/-- Collaborator outcomes of one publish_or_update_table call: the update
attempt's outcomes, the operator's answers, whether the permanent item
delete succeeds, and whether create_new_table produces a table. -/
structure PubEnv (α : Type) where
  upd : UpdateEnv α
  answers : List PyStr
  deleteItemOk : Bool
  createOk : Bool
deriving DecidableEq

/-- Sink operations performed by publish_or_update_table. -/
inductive PEff
  | searchTable
  | upd (e : UEff)
  | promptShown
  | deleteItem (i : Nat)
  | createTable (i : Nat)
  | shareOrg
deriving DecidableEq

/-- Embedding of create_new_table: on success the sink mints a fresh
identity for the published table holding the dataset; on failure nothing
is published. -/
def create_new_table {α : Type} (createOk : Bool) (st : SinkState α) (data : List α) :
    Option (Table α) × SinkState α × List PEff :=
  if createOk then
    (Option.some ⟨st.nextId, data⟩, ⟨Option.some ⟨st.nextId, data⟩, st.nextId + 1⟩,
      [PEff.createTable st.nextId])
  else
    (Option.none, st, [PEff.createTable st.nextId])

/-- Embedding of publish_or_update_table.  An empty dataset returns None
at once with no sink operation.  Otherwise the existing table is searched
for; if none is found the create path runs (sharing the new table on
success).  If one is found the update attempt runs; success returns the
existing item, whose identity is untouched (only its rows changed).  On
failure the prompt decides: yes permanently deletes the item and falls
through to the create path (a failing delete returns None); no and skip
return the existing item unchanged in identity.  An answer stream with no
recognized answer loops forever, modelled as the outer None. -/
def publish_or_update_table {α : Type} (env : PubEnv α) (st : SinkState α) (data : List α) :
    Option (Option (Table α) × SinkState α × List PEff) :=
  if data.isEmpty then Option.some (Option.none, st, [])
  else
    match st.table with
    | Option.none =>
      let c := create_new_table env.createOk st data
      match c.1 with
      | Option.some tn =>
        Option.some (Option.some tn, c.2.1, (PEff.searchTable :: c.2.2) ++ [PEff.shareOrg])
      | Option.none => Option.some (Option.none, c.2.1, PEff.searchTable :: c.2.2)
    | Option.some t =>
      let u := update_existing_table env.upd t.rows data
      let t2 : Table α := ⟨t.id, u.2.1⟩
      let st2 : SinkState α := ⟨Option.some t2, st.nextId⟩
      let tr := PEff.searchTable :: (u.2.2.map PEff.upd)
      if u.1 = true then Option.some (Option.some t2, st2, tr)
      else
        match firstDecision env.answers with
        | Option.none => Option.none
        | Option.some Decision.yes =>
          if env.deleteItemOk then
            let st3 : SinkState α := ⟨Option.none, st.nextId⟩
            let c := create_new_table env.createOk st3 data
            match c.1 with
            | Option.some tn =>
              Option.some (Option.some tn, c.2.1,
                (tr ++ [PEff.promptShown, PEff.deleteItem t.id]) ++ c.2.2 ++ [PEff.shareOrg])
            | Option.none =>
              Option.some (Option.none, c.2.1,
                (tr ++ [PEff.promptShown, PEff.deleteItem t.id]) ++ c.2.2)
          else
            Option.some (Option.none, st2, tr ++ [PEff.promptShown])
        | Option.some Decision.no =>
          Option.some (Option.some t2, st2, tr ++ [PEff.promptShown])
        | Option.some Decision.skip =>
          Option.some (Option.some t2, st2, tr ++ [PEff.promptShown])

/-- A run of publish_or_update_table calls, each against the sink state
left by the previous one, returning the last call's result together with
the final state (None when some call blocks forever at the prompt). -/
def runPublishSeq {α : Type} : List (PubEnv α × List α) → SinkState α →
    Option (Option (Table α) × SinkState α)
  | [], st => Option.some (Option.none, st)
  | c :: rest, st =>
    match publish_or_update_table c.1 st c.2 with
    | Option.none => Option.none
    | Option.some r =>
      match rest with
      | [] => Option.some (r.1, r.2.1)
      | _ :: _ => runPublishSeq rest r.2.1

/-- C4: publish_or_update_table on a dataset of zero rows returns None at
once with an empty operation trace — no table search, no feature delete,
no staging create or update, no publish is performed against the sink. -/
theorem publish_empty_noop {α : Type} (env : PubEnv α) (st : SinkState α) :
    publish_or_update_table env st ([] : List α) =
      Option.some (Option.none, st, ([] : List PEff)) := rfl

/-- A found table plus a successful update attempt returns the existing
item: the identity is preserved, only the rows change. -/
theorem publish_found_update_success {α : Type} (env : PubEnv α) (st : SinkState α)
    (data : List α) (t : Table α)
    (ht : st.table = Option.some t) (hd : data ≠ [])
    (hu : updAttemptSucceeds env.upd = true) :
    publish_or_update_table env st data =
      Option.some
        (Option.some ⟨t.id, (update_existing_table env.upd t.rows data).2.1⟩,
          ⟨Option.some ⟨t.id, (update_existing_table env.upd t.rows data).2.1⟩, st.nextId⟩,
          PEff.searchTable :: ((update_existing_table env.upd t.rows data).2.2.map PEff.upd)) := by
  have hde : data.isEmpty = false := by
    cases data with
    | nil => exact absurd rfl hd
    | cons hd2 tl2 => rfl
  have h1 : (update_existing_table env.upd t.rows data).1 = true := by
    rw [update_existing_table_fst]
    exact hu
  simp only [publish_or_update_table, hde, Bool.false_eq_true, if_false, ht, h1, if_pos]

/-- C1: across any sequence of publish_or_update_table calls in which
every call's dataset is nonempty and every underlying update attempt
succeeds, the final (and last returned) table carries the identity of the
table present before the first call; and in any single call that finds an
existing table, a returned table with a different identity is possible
only when the operator's first recognized answer at the prompt is yes. -/
theorem publish_identity_stable {α : Type} :
    (∀ (calls : List (PubEnv α × List α)) (st : SinkState α) (t : Table α),
      st.table = Option.some t →
      (∀ c ∈ calls, c.2 ≠ [] ∧ updAttemptSucceeds c.1.upd = true) →
      ∃ res st2 t2, runPublishSeq calls st = Option.some (res, st2) ∧
        st2.table = Option.some t2 ∧ t2.id = t.id ∧
        (calls ≠ [] → res = Option.some t2)) ∧
    (∀ (env : PubEnv α) (st : SinkState α) (data : List α) (t : Table α)
      (res : Option (Table α)) (st2 : SinkState α) (tr : List PEff) (t2 : Table α),
      st.table = Option.some t →
      publish_or_update_table env st data = Option.some (res, st2, tr) →
      res = Option.some t2 → t2.id ≠ t.id →
      firstDecision env.answers = Option.some Decision.yes) := by
  constructor
  · intro calls
    induction calls with
    | nil =>
      intro st t ht hall
      exact ⟨Option.none, st, t, rfl, ht, rfl, fun h => absurd rfl h⟩
    | cons c rest ih =>
      intro st t ht hall
      have hc := hall c (List.mem_cons_self c rest)
      have hpub := publish_found_update_success c.1 st c.2 t ht hc.1 hc.2
      simp only [runPublishSeq, hpub]
      cases rest with
      | nil =>
        refine ⟨Option.some ⟨t.id, (update_existing_table c.1.upd t.rows c.2).2.1⟩,
          ⟨Option.some ⟨t.id, (update_existing_table c.1.upd t.rows c.2).2.1⟩, st.nextId⟩,
          ⟨t.id, (update_existing_table c.1.upd t.rows c.2).2.1⟩, rfl, rfl, rfl, fun _ => rfl⟩
      | cons c2 rest2 =>
        have hall2 : ∀ d ∈ c2 :: rest2, d.2 ≠ [] ∧ updAttemptSucceeds d.1.upd = true := by
          intro d hdm
          exact hall d (List.mem_cons_of_mem c hdm)
        rcases ih (⟨Option.some ⟨t.id, (update_existing_table c.1.upd t.rows c.2).2.1⟩,
            st.nextId⟩ : SinkState α) ⟨t.id, (update_existing_table c.1.upd t.rows c.2).2.1⟩
            rfl hall2 with ⟨res, stf, t3, hrun, htab, hid, hres⟩
        exact ⟨res, stf, t3, hrun, htab, hid, fun _ => hres (by simp)⟩
  · intro env st data t res st2 tr t2 ht hpub hres hne
    have hde : data.isEmpty = false := by
      cases hdc : data with
      | nil =>
        rw [hdc] at hpub
        simp only [publish_or_update_table, List.isEmpty_nil, if_pos] at hpub
        have : res = Option.none := by
          injection hpub with h1
          injection h1 with h2 h3
          exact h2.symm
        rw [this] at hres
        cases hres
      | cons a l => rfl
    simp only [publish_or_update_table, hde, Bool.false_eq_true, if_false, ht] at hpub
    by_cases hu : (update_existing_table env.upd t.rows data).1 = true
    · rw [if_pos hu] at hpub
      have h1 : res = Option.some ⟨t.id, (update_existing_table env.upd t.rows data).2.1⟩ := by
        injection hpub with h2
        injection h2 with h3 h4
        exact h3.symm
      rw [h1] at hres
      injection hres with h5
      rw [← h5] at hne
      exact absurd rfl hne
    · rw [if_neg hu] at hpub
      cases hfd : firstDecision env.answers with
      | none =>
        rw [hfd] at hpub
        cases hpub
      | some d =>
        cases d with
        | yes => rfl
        | no =>
          rw [hfd] at hpub
          have h1 : res = Option.some ⟨t.id, (update_existing_table env.upd t.rows data).2.1⟩ := by
            injection hpub with h2
            injection h2 with h3 h4
            exact h3.symm
          rw [h1] at hres
          injection hres with h5
          rw [← h5] at hne
          exact absurd rfl hne
        | skip =>
          rw [hfd] at hpub
          have h1 : res = Option.some ⟨t.id, (update_existing_table env.upd t.rows data).2.1⟩ := by
            injection hpub with h2
            injection h2 with h3 h4
            exact h3.symm
          rw [h1] at hres
          injection hres with h5
          rw [← h5] at hne
          exact absurd rfl hne

/-- A publish environment in which the update attempt succeeds through
the append primitive. -/
def c1env : PubEnv Nat :=
  ⟨⟨true, true, true, true, true, AppendOutcome.okA, BatchFallback.failB⟩, [], true, true⟩

/-- Witness for publish_identity_stable: a single successful update call
on a table with identity 7 ends with the state and result still carrying
identity 7. -/
theorem publish_identity_stable_witness :
    ∃ res st2 t2,
      runPublishSeq [(c1env, [5])] (⟨Option.some ⟨7, [1]⟩, 8⟩ : SinkState Nat) =
        Option.some (res, st2) ∧
      st2.table = Option.some t2 ∧ t2.id = (⟨7, [1]⟩ : Table Nat).id ∧
      ([(c1env, [5])] ≠ [] → res = Option.some t2) :=
  publish_identity_stable.1 [(c1env, [5])] ⟨Option.some ⟨7, [1]⟩, 8⟩ ⟨7, [1]⟩ rfl (by decide)

/-- When the delete and staging steps succeed but the append primitive
does not return a result and the batch fallback fails, the update attempt
reports failure with the table left empty: the unconditional delete of
step 1 already removed every row. -/
theorem update_both_paths_fail {α : Type} (e : UpdateEnv α) (oldRows newRows : List α)
    (hhas : e.hasTarget = true) (hdel : e.deleteOk = true)
    (hcsv : (if e.csvFound then e.csvUpdateOk else e.csvCreateOk) = true)
    (happ : e.append ≠ AppendOutcome.okA)
    (hbat : e.batch = BatchFallback.failB ∨ e.batch = BatchFallback.throwsFB) :
    (update_existing_table e oldRows newRows).1 = false ∧
    (update_existing_table e oldRows newRows).2.1 = [] := by
  rcases e with ⟨ht, dk, cf, cu, cc, ap, bt⟩
  cases ht <;> cases dk <;> cases cf <;> cases cu <;> cases cc <;> cases ap <;> cases bt <;>
    simp_all [update_existing_table]

/-- C2 amended: when an existing table is found, both refresh paths fail,
and the operator answers skip (or no), publish_or_update_table returns
the original item with its identity unchanged — but the table is not left
untouched: the failed attempt deleted all of its rows before attempting
the refresh, so the returned table is empty rather than holding its
previous rows. -/
theorem skip_preserves_identity_not_rows {α : Type} (env : PubEnv α) (st : SinkState α)
    (data : List α) (t : Table α)
    (ht : st.table = Option.some t) (hd : data ≠ [])
    (hhas : env.upd.hasTarget = true) (hdel : env.upd.deleteOk = true)
    (hcsv : (if env.upd.csvFound then env.upd.csvUpdateOk else env.upd.csvCreateOk) = true)
    (happ : env.upd.append ≠ AppendOutcome.okA)
    (hbat : env.upd.batch = BatchFallback.failB ∨ env.upd.batch = BatchFallback.throwsFB)
    (hans : firstDecision env.answers = Option.some Decision.skip ∨
      firstDecision env.answers = Option.some Decision.no) :
    ∃ tr, publish_or_update_table env st data =
      Option.some (Option.some ⟨t.id, ([] : List α)⟩,
        ⟨Option.some ⟨t.id, ([] : List α)⟩, st.nextId⟩, tr) := by
  have hde : data.isEmpty = false := by
    cases data with
    | nil => exact absurd rfl hd
    | cons a l => rfl
  obtain ⟨hu1, hu2⟩ := update_both_paths_fail env.upd t.rows data hhas hdel hcsv happ hbat
  have hu1f : ¬ (update_existing_table env.upd t.rows data).1 = true := by
    rw [hu1]
    exact Bool.false_ne_true
  rcases hans with hfd | hfd <;>
    · refine ⟨PEff.searchTable ::
        ((update_existing_table env.upd t.rows data).2.2.map PEff.upd) ++ [PEff.promptShown], ?_⟩
      simp only [publish_or_update_table, hde, Bool.false_eq_true, if_false, ht, if_neg hu1f, hfd,
        hu2]

/-- The publish environment of the scenario: delete and staging succeed,
the append call raises, the batch fallback returns False, and the
operator answers skip. -/
def c2env : PubEnv Nat :=
  ⟨⟨true, true, true, true, true, AppendOutcome.throwsA, BatchFallback.failB⟩, ["skip".data], true, true⟩

/-- The sink state of the scenario: a published table with identity 7
holding one row. -/
def c2st : SinkState Nat := ⟨Option.some ⟨7, [5]⟩, 8⟩

/-- C2 counterexample: with both refresh paths failing and the operator
answering skip, publish_or_update_table returns the item with identity 7
— but with no rows: the original row 5 was deleted by the failed attempt,
so the claim that the table is left entirely untouched with no rows
modified is false at this input. -/
theorem skip_rows_modified_cx :
    (publish_or_update_table c2env c2st [9]).map (fun r => (r.1, r.2.1.table)) =
      Option.some (Option.some (⟨7, []⟩ : Table Nat), Option.some (⟨7, []⟩ : Table Nat)) ∧
    c2st.table = Option.some (⟨7, [5]⟩ : Table Nat) ∧
    (⟨7, []⟩ : Table Nat).rows ≠ (⟨7, [5]⟩ : Table Nat).rows := by
  refine ⟨by decide, rfl, by decide⟩

/-- Witness for skip_preserves_identity_not_rows at the same concrete
scenario, through the operator answering no. -/
theorem skip_preserves_identity_not_rows_witness :
    ∃ tr, publish_or_update_table
        (⟨⟨true, true, true, true, true, AppendOutcome.isNoneA, BatchFallback.throwsFB⟩,
          ["maybe".data, "no".data], true, true⟩ : PubEnv Nat)
        (⟨Option.some ⟨3, [1, 2]⟩, 4⟩ : SinkState Nat) [6] =
      Option.some (Option.some (⟨3, ([] : List Nat)⟩ : Table Nat),
        ⟨Option.some ⟨3, ([] : List Nat)⟩, 4⟩, tr) :=
  skip_preserves_identity_not_rows
    (⟨⟨true, true, true, true, true, AppendOutcome.isNoneA, BatchFallback.throwsFB⟩,
      ["maybe".data, "no".data], true, true⟩ : PubEnv Nat)
    (⟨Option.some ⟨3, [1, 2]⟩, 4⟩ : SinkState Nat) [6] ⟨3, [1, 2]⟩
    rfl (by decide) rfl rfl rfl (by decide) (Or.inr rfl) (Or.inr (by decide))
